import Mathlib

/-!
Verification development for the tokenizer resolution and caching subsystem
of the refact agent engine (sources: `src/refact-agent/engine/src/tokens.rs`
and `src/refact-agent/engine/src/tiktoken_wrapper.rs`).

The Rust sources are shallowly embedded: filesystem paths become lists of
components, the filesystem itself becomes an abstract oracle of boolean
queries (is-directory, is-file, exists, parses-as-tokenizer-json), network
and filesystem side effects become explicit event traces, and the external
crates (`tokenizers`, `tiktoken-rs`, `url`, and the helpers living outside
the two source files, such as `canonical_path` and
`strip_model_from_finetune`) become abstract function-valued parameters.
-/

set_option autoImplicit false

namespace RefactTokens

/-- Model of a filesystem path as its list of components (`PathBuf::new()`
is the empty list; `Path::join` appends one component). -/
abbrev FsPath := List String

/-- Model of `std::path::Path::join` with a single-component name. -/
def pathJoin (p : FsPath) (name : String) : FsPath := p ++ [name]

/-- Characters after the final `.` of a character list, or `none` when the
list has no `.`. -/
def afterLastDot : List Char → Option (List Char)
  | [] => none
  | c :: rest =>
    match afterLastDot rest with
    | some ext => some ext
    | none => if c = '.' then some rest else none

/-- Model of Rust `Path::extension().and_then(|e| e.to_str())` on a file
name: `None` when there is no embedded `.`, or when the name begins with
`.` and has no other `.`; otherwise the portion after the final `.`. -/
def rustExtOfName (name : String) : Option String :=
  match name.data with
  | [] => none
  | c0 :: rest =>
    if c0 = '.' then (afterLastDot rest).map String.mk
    else (afterLastDot (c0 :: rest)).map String.mk

/-- Model of `str::starts_with` (kernel-computable form over the
character lists). -/
def strStartsWith (s pre : String) : Bool :=
  pre.data.isPrefixOf s.data

/-- Fuel-driven single-pattern replacement over character lists: leftmost,
non-overlapping, as `str::replace` behaves for a non-empty pattern. -/
def replaceFuel (pat rep : List Char) : Nat → List Char → List Char
  | 0, l => l
  | _, [] => []
  | fuel + 1, c :: rest =>
    if pat.isPrefixOf (c :: rest) && !pat.isEmpty then
      rep ++ replaceFuel pat rep fuel ((c :: rest).drop pat.length)
    else c :: replaceFuel pat rep fuel rest

/-- Model of `str::replace` (the source applies it with the non-empty
pattern `$HF_MODEL`). -/
def strReplace (s pat rep : String) : String :=
  String.mk (replaceFuel pat.data rep.data s.data.length s.data)

/-- Extension of a path: the extension of its last component. -/
def pathExt (p : FsPath) : Option String :=
  match p.getLast? with
  | none => none
  | some name => rustExtOfName name

/-- Model of `path.parent().unwrap_or(path)`: drop the last component when
there is one. -/
def parentOrSelf (p : FsPath) : FsPath :=
  if p.isEmpty then p else p.dropLast

/-- Abstract filesystem oracle: the queries the two source files perform.
`validTokenizerJson p` models whether `tokenizers::Tokenizer::from_file(p)`
succeeds on the bytes stored at `p` (the JSON parse is external to this
subsystem and therefore abstract). -/
structure FileSystem where
  isDir : FsPath → Bool
  isFile : FsPath → Bool
  pathExists : FsPath → Bool
  validTokenizerJson : FsPath → Bool

/-- Model of `check_json_file` (tokens.rs): `Tokenizer::from_file(path)`
succeeds — which requires the file to exist and to parse. -/
def check_json_file (fs : FileSystem) (p : FsPath) : Bool :=
  fs.pathExists p && fs.validTokenizerJson p

/-- Which tokenizer format was detected (FormatA is the HuggingFace
vocabulary-table JSON, FormatB is the tiktoken byte-pair table). -/
inductive TokFormat where
  | FormatA : TokFormat
  | FormatB : TokFormat
deriving DecidableEq, Repr

/-- Model of `is_tiktoken_format` (tiktoken_wrapper.rs, lines 237-250):
a directory qualifies when it contains `tiktoken.model`; a file qualifies
when its extension is `model`; anything else does not qualify. -/
def is_tiktoken_format (fs : FileSystem) (path : FsPath) : Bool :=
  if fs.isDir path then
    fs.pathExists (pathJoin path "tiktoken.model")
  else if fs.isFile path then
    (pathExt path == some "model")
  else
    false

/-- Model of `detect_and_load_tokenizer` (tokens.rs, lines 134-166),
abstracted to the format classification it commits to: the HuggingFace
candidate path is the directory's `tokenizer.json`, the file itself when it
has a `json` extension, or otherwise `tokenizer.json` in the parent
directory; a candidate that exists and parses yields FormatA, else a
tiktoken-qualifying path yields FormatB, else the call errors. -/
def detect_and_load_tokenizer (fs : FileSystem) (path : FsPath) : Except String TokFormat :=
  let tokenizer_json :=
    if fs.isDir path then pathJoin path "tokenizer.json"
    else if pathExt path == some "json" then path
    else pathJoin (parentOrSelf path) "tokenizer.json"
  if fs.pathExists tokenizer_json && check_json_file fs tokenizer_json then
    Except.ok TokFormat.FormatA
  else if is_tiktoken_format fs path then
    Except.ok TokFormat.FormatB
  else
    Except.error "No valid tokenizer format found"

/-! ### Fetcher model

`try_download_tokenizer_file_and_open` (tokens.rs, lines 168-227) together
with its helper `download_tokenizer_file` (lines 95-123) is modelled as a
deterministic function of an environment assigning an outcome to each step
of each attempt, producing both the `Result` and an event trace recording
every externally visible action (sleeps, HTTP requests, file writes,
validations, copies, error logs). -/

/-- Externally visible events of one fetch run. `recordError` models the
assignment to `last_error` together with the `tracing::error!` log;
`writeDownloaded` models writing the HTTP response body into a file
(`try_open_tokenizer`); `copyFile` models `tokio::fs::copy`;
`renameFile` models an atomic `rename`, which the source never performs
but the specification's claim C2 speaks about. -/
inductive FetchEvent where
  | sleep (ms : Nat) : FetchEvent
  | attemptStart (i : Nat) : FetchEvent
  | createDirAll (p : FsPath) : FetchEvent
  | httpGet (url : String) (withAuth : Bool) : FetchEvent
  | writeDownloaded (p : FsPath) : FetchEvent
  | validate (p : FsPath) (ok : Bool) : FetchEvent
  | copyFile (src dst : FsPath) : FetchEvent
  | renameFile (src dst : FsPath) : FetchEvent
  | recordError (msg : String) : FetchEvent
deriving DecidableEq, Repr

/-- Outcome environment of one retry-loop iteration: which fallible step
fails (with what error text) and whether a successfully downloaded body
validates as a tokenizer file. `downloadErr` covers all failures of the
HTTP request and of writing its body (the source maps them into messages
such as "failed to get response: ..." before the outer wrapping). -/
structure AttemptEnv where
  tmpDirErr : Option String
  downloadErr : Option String
  bodyValid : Bool
  targetDirErr : Option String
  copyErr : Option String

/-- Per-run constants of one fetch: URL, whether the bearer credential is
non-empty, the freshly generated temporary path (`temp_dir` joined with the
random uuid), and the final target path. -/
structure FetchGlobals where
  url : String
  auth : Bool
  tempDir : FsPath
  uuid : String
  targetPath : FsPath

/-- The temporary file path `std::env::temp_dir().join(Uuid::new_v4())`. -/
def FetchGlobals.tmpPath (g : FetchGlobals) : FsPath := pathJoin g.tempDir g.uuid

/-- State of the temporary file across attempts: `none` when it does not
exist, `some v` when it exists with validity `v`. The retry loop reuses the
same temporary path on every attempt, and `download_tokenizer_file` returns
early when the file already exists. -/
abbrev TmpState := Option Bool

/-- Steps of the loop body after a successful `download_tokenizer_file`
(tokens.rs, lines 194-224): target-parent presence, target-parent
creation, validation of the temporary file, copy over the target. `evs`
are the events already performed by the download phase. -/
def afterDownload (a : AttemptEnv) (g : FetchGlobals) (ts2 : TmpState) (evs : List FetchEvent) :
    Option String × TmpState × List FetchEvent :=
  if g.targetPath.isEmpty then
    (some "failed to download tokenizer: parent is not set", ts2, evs)
  else
    match a.targetDirErr with
    | some e => (some ("failed to create parent dir: " ++ e), ts2,
        evs ++ [FetchEvent.createDirAll (parentOrSelf g.targetPath)])
    | none =>
      if ts2 ≠ some true then
        (some "failed to download tokenizer: file is not a tokenizer", ts2,
          evs ++ [FetchEvent.createDirAll (parentOrSelf g.targetPath),
            FetchEvent.validate g.tmpPath false])
      else
        match a.copyErr with
        | some e => (some ("failed to copy tokenizer file: " ++ e), ts2,
            evs ++ [FetchEvent.createDirAll (parentOrSelf g.targetPath),
              FetchEvent.validate g.tmpPath true, FetchEvent.copyFile g.tmpPath g.targetPath])
        | none => (none, ts2,
            evs ++ [FetchEvent.createDirAll (parentOrSelf g.targetPath),
              FetchEvent.validate g.tmpPath true, FetchEvent.copyFile g.tmpPath g.targetPath])

/-- Model of one iteration of the retry loop body (tokens.rs, lines
187-224), inlining `download_tokenizer_file` (lines 95-123): create the
temporary file's parent directory, short-circuit if the temporary file
exists, else perform the HTTP GET and write the body; then hand over to
`afterDownload`. Returns the recorded error (if any), the new
temporary-file state, and the events of the iteration body. -/
def runAttempt (a : AttemptEnv) (g : FetchGlobals) (ts : TmpState) :
    Option String × TmpState × List FetchEvent :=
  let dirEv : List FetchEvent := [FetchEvent.createDirAll (parentOrSelf g.tmpPath)]
  match a.tmpDirErr with
  | some e => (some ("failed to download tokenizer: failed to create parent dir: " ++ e), ts, dirEv)
  | none =>
    if ts.isSome then
      afterDownload a g ts dirEv
    else
      match a.downloadErr with
      | some e => (some ("failed to download tokenizer: " ++ e), ts,
          dirEv ++ [FetchEvent.httpGet g.url g.auth])
      | none =>
        afterDownload a g (some a.bodyValid)
          (dirEv ++ [FetchEvent.httpGet g.url g.auth, FetchEvent.writeDownloaded g.tmpPath])

/-- Events the loop emits on entering iteration `i`: the 200ms sleep of
`if i != 0` followed by the start of the attempt. -/
def preEvents (i : Nat) : List FetchEvent :=
  (if i == 0 then [] else [FetchEvent.sleep 200]) ++ [FetchEvent.attemptStart i]

/-- Model of the `for i in 0..15` retry loop (tokens.rs, lines 183-226):
sleep 200ms before every attempt except the first, run the body, return
`Ok` on success, record the error and continue on failure, and return the
last recorded error when the attempt budget is exhausted. -/
def fetchLoop (env : Nat → AttemptEnv) (g : FetchGlobals) :
    Nat → Nat → TmpState → String → Except String Unit × List FetchEvent
  | 0, _, _, lastError => (Except.error lastError, [])
  | count + 1, i, ts, _lastError =>
    match runAttempt (env i) g ts with
    | (none, _, body) => (Except.ok (), preEvents i ++ body)
    | (some msg, ts2, body) =>
      let rest := fetchLoop env g count (i + 1) ts2 msg
      (rest.1, preEvents i ++ body ++ [FetchEvent.recordError msg] ++ rest.2)

/-- Model of `try_download_tokenizer_file_and_open` (tokens.rs, lines
168-227): short-circuit when the target already exists and validates,
otherwise run the 15-attempt retry loop against a fresh temporary file. -/
def try_download_tokenizer_file_and_open (fs : FileSystem) (env : Nat → AttemptEnv)
    (g : FetchGlobals) : Except String Unit × List FetchEvent :=
  if fs.pathExists g.targetPath && check_json_file fs g.targetPath then
    (Except.ok (), [FetchEvent.validate g.targetPath true])
  else
    fetchLoop env g 15 0 none ""

/-! ### Tokenizer value models

`TikTokenWrapper` (tiktoken_wrapper.rs) and the `UnifiedTokenizer` enum
(tokens.rs). The external engines — `tiktoken_rs::CoreBPE` and
`tokenizers::Tokenizer` — are abstracted to their observable behavior:
an ordinal encoder, a single-token decoder, and (for the HuggingFace
engine) an encode function parameterized by its truncation/padding
configuration. -/

/-- Model of `tokenizers::TruncationParams`: the source only reads
`max_length`, so only that field is modelled. -/
structure TruncationParams where
  max_length : Nat
deriving DecidableEq, Repr

/-- Model of `tokenizers::PaddingParams`: the source never reads its
contents, so it is a marker value. -/
structure PaddingParams where
deriving DecidableEq, Repr

/-- Model of `tiktoken_rs::CoreBPE` (external crate): the ordinal encoder
and the single-id decoder the wrapper uses (`decode(vec![id])`, with
`none` standing for a decode error). -/
structure CoreBPE where
  encodeOrdinary : String → List Nat
  decodeOne : Nat → Option String

/-- Model of `TikTokenConfig` (tiktoken_wrapper.rs, lines 10-18); the
JSON values of `added_tokens_decoder` are opaque and modelled as strings. -/
structure TikTokenConfig where
  added_tokens_decoder : List (String × String)
  model_max_length : Option Nat
  pat_str : Option String

/-- Model of `TikTokenWrapper` (tiktoken_wrapper.rs, lines 31-37). -/
structure TikTokenWrapper where
  tokenizer : CoreBPE
  config : TikTokenConfig
  truncation : Option TruncationParams
  padding : Option PaddingParams

/-- Model of the HuggingFace `tokenizers::Tokenizer` engine (external
crate): an abstract encode that depends on the engine's current
truncation/padding configuration, plus that configuration. -/
structure HFTokenizer where
  encodeWith : Option TruncationParams → Option PaddingParams → String → Bool →
    Except String (List Nat)
  truncation : Option TruncationParams
  padding : Option PaddingParams

/-- Model of the HuggingFace `Encoding` record as the TikToken adapter
synthesizes it (tiktoken_wrapper.rs, lines 208-218); the always-empty
`overflowing` and `sequence_ranges` components are omitted. -/
structure EncodingRes where
  ids : List Nat
  type_ids : List Nat
  tokens : List String
  word_ids : List (Option Nat)
  offsets : List (Nat × Nat)
  special_tokens_mask : List Nat
  attention_mask : List Nat
deriving Repr, DecidableEq

/-- Byte-length accumulation of the per-token offsets (tiktoken_wrapper.rs,
lines 195-201): each token contributes the byte length of its decoded
string, continuing from the running offset. -/
def buildOffsets : List String → Nat → List (Nat × Nat)
  | [], _ => []
  | s :: rest, cur =>
    (cur, cur + s.utf8ByteSize) :: buildOffsets rest (cur + s.utf8ByteSize)

/-- Decoded string of one token id (tiktoken_wrapper.rs, lines 184-190):
the engine's single-id decode, falling back to the `token_<id>`
placeholder. -/
def TikTokenWrapper.tokenString (w : TikTokenWrapper) (id : Nat) : String :=
  (w.tokenizer.decodeOne id).getD ("token_" ++ Nat.repr id)

/-- Model of `TikTokenWrapper::encode_fast` (tiktoken_wrapper.rs, lines
164-219) as the `Encoding` it builds: ordinal encode, prefix truncation
when configured, then the synthesized parallel sequences. The source
always returns `Ok`, so the `Encoding` is built totally and
`TikTokenWrapper.encode_fast` below wraps it in `Except.ok`. -/
def TikTokenWrapper.encodeEncoding (w : TikTokenWrapper) (text : String) : EncodingRes :=
  let tokens0 := w.tokenizer.encodeOrdinary text
  let toks :=
    match w.truncation with
    | some tr => if tokens0.length > tr.max_length then tokens0.take tr.max_length else tokens0
    | none => tokens0
  let ids := toks
  let tokens_str := ids.map w.tokenString
  { ids := ids
    type_ids := List.replicate ids.length 0
    tokens := tokens_str
    word_ids := (List.range ids.length).map (fun i => some i)
    offsets := buildOffsets tokens_str 0
    special_tokens_mask := List.replicate ids.length 0
    attention_mask := List.replicate ids.length 1 }

/-- Model of `TikTokenWrapper::encode_fast`: always `Ok` (the source has
no error path; `add_special` is accepted and ignored). -/
def TikTokenWrapper.encode_fast (w : TikTokenWrapper) (text : String) (_add_special : Bool) :
    Except String EncodingRes :=
  Except.ok (w.encodeEncoding text)

/-- Model of `TikTokenWrapper::with_truncation` (tiktoken_wrapper.rs,
lines 222-224), applied to a clone of the wrapper. -/
def TikTokenWrapper.with_truncation (w : TikTokenWrapper) (tr : Option TruncationParams) :
    TikTokenWrapper :=
  { w with truncation := tr }

/-- Model of `TikTokenWrapper::with_padding` (tiktoken_wrapper.rs, lines
227-232): stores the parameters (logging a warning when some), no other
effect. -/
def TikTokenWrapper.with_padding (w : TikTokenWrapper) (pd : Option PaddingParams) :
    TikTokenWrapper :=
  { w with padding := pd }

/-- Configuration update of the HuggingFace engine, applied to a clone. -/
def HFTokenizer.setTruncation (t : HFTokenizer) (tr : Option TruncationParams) : HFTokenizer :=
  { t with truncation := tr }

/-- Padding update of the HuggingFace engine, applied to a clone. -/
def HFTokenizer.setPadding (t : HFTokenizer) (pd : Option PaddingParams) : HFTokenizer :=
  { t with padding := pd }

/-- Encode with the HuggingFace engine under its current configuration;
the engine reports only a token sequence here, which is all the counting
code consumes of it. -/
def HFTokenizer.encode (t : HFTokenizer) (text : String) (add_special : Bool) :
    Except String (List Nat) :=
  t.encodeWith t.truncation t.padding text add_special

/-- Model of the `UnifiedTokenizer` enum (tokens.rs, lines 20-23). -/
inductive UnifiedTokenizer where
  | HuggingFace (t : HFTokenizer) : UnifiedTokenizer
  | TikToken (w : TikTokenWrapper) : UnifiedTokenizer

/-- Model of `UnifiedTokenizer::encode_fast` (tokens.rs, lines 27-37),
reduced to the token count the counting functions read off the returned
`Encoding` (the HuggingFace engine's full `Encoding` is external and
abstracted to its id sequence). -/
def UnifiedTokenizer.encodeLen (t : UnifiedTokenizer) (text : String) (add_special : Bool) :
    Except String Nat :=
  match t with
  | UnifiedTokenizer.HuggingFace hf =>
    match hf.encode text add_special with
    | Except.ok ids => Except.ok ids.length
    | Except.error e => Except.error ("HuggingFace tokenizer error: " ++ e)
  | UnifiedTokenizer.TikToken w =>
    match w.encode_fast text add_special with
    | Except.ok enc => Except.ok enc.ids.length
    | Except.error e => Except.error e

/-- Model of `UnifiedTokenizer::with_truncation` (tokens.rs, lines 41-56):
clone the inner engine, apply the setting to the clone, wrap the clone in
a fresh shared pointer. -/
def UnifiedTokenizer.with_truncation (t : UnifiedTokenizer) (tr : Option TruncationParams) :
    UnifiedTokenizer :=
  match t with
  | UnifiedTokenizer.HuggingFace hf => UnifiedTokenizer.HuggingFace (hf.setTruncation tr)
  | UnifiedTokenizer.TikToken w => UnifiedTokenizer.TikToken (w.with_truncation tr)

/-- Model of `UnifiedTokenizer::with_padding` (tokens.rs, lines 60-73). -/
def UnifiedTokenizer.with_padding (t : UnifiedTokenizer) (pd : Option PaddingParams) :
    UnifiedTokenizer :=
  match t with
  | UnifiedTokenizer.HuggingFace hf => UnifiedTokenizer.HuggingFace (hf.setPadding pd)
  | UnifiedTokenizer.TikToken w => UnifiedTokenizer.TikToken (w.with_padding pd)

/-! #### Shared-instance (Arc) heap model

`UnifiedTokenizer` values are shared through `Arc`. To state that
`with_truncation`/`with_padding` never mutate a shared instance in place,
the heap of Arc cells is modelled as a list of tokenizer values indexed by
cell id; the source's `Arc::new(clone-and-modify)` becomes an allocation
of a new cell, leaving every existing cell untouched. -/

/-- Heap of Arc-shared tokenizer cells. -/
abbrev TokStore := List UnifiedTokenizer

/-- Dereference a cell id. -/
def storeGet (s : TokStore) (i : Nat) : Option UnifiedTokenizer := s[i]?

/-- The heap-level effect of `UnifiedTokenizer::with_truncation` on a
shared cell: allocate a new cell holding the reconfigured clone and return
its id; existing cells are not written. -/
def withTruncationShared (s : TokStore) (h : Nat) (tr : Option TruncationParams) :
    TokStore × Nat :=
  match storeGet s h with
  | some t => (s ++ [t.with_truncation tr], s.length)
  | none => (s, h)

/-- The heap-level effect of `UnifiedTokenizer::with_padding`. -/
def withPaddingShared (s : TokStore) (h : Nat) (pd : Option PaddingParams) :
    TokStore × Nat :=
  match storeGet s h with
  | some t => (s ++ [t.with_padding pd], s.length)
  | none => (s, h)

/-- Encode behavior observed through a cell id. -/
def encodeAt (s : TokStore) (i : Nat) (text : String) (add_special : Bool) :
    Option (Except String Nat) :=
  (storeGet s i).map (fun t => t.encodeLen text add_special)

/-! ### Token counting (tokens.rs, lines 293-321) -/

/-- Model of `estimate_tokens`: `1 + text.len() * 2 / 7`, with `len` the
UTF-8 byte length. -/
def estimate_tokens (text : String) : Nat := 1 + text.utf8ByteSize * 2 / 7

/-- Model of `count_text_tokens` (tokens.rs, lines 296-311). -/
def count_text_tokens (tokenizer : Option UnifiedTokenizer) (text : String) :
    Except String Nat :=
  match tokenizer with
  | some t =>
    match t.encodeLen text false with
    | Except.ok n => Except.ok n
    | Except.error e => Except.error ("Encoding error: " ++ e)
  | none => Except.ok (estimate_tokens text)

/-- Model of `count_text_tokens_with_fallback` (tokens.rs, lines 313-321):
substitute the estimate for any counting error. -/
def count_text_tokens_with_fallback (tokenizer : Option UnifiedTokenizer) (text : String) :
    Nat :=
  match count_text_tokens tokenizer text with
  | Except.ok n => n
  | Except.error _ => estimate_tokens text

/-! ### Resolver / cache model

`cached_tokenizer` (tokens.rs, lines 229-291). The loaded tokenizer object
is abstracted to the `TokFormat` the detector committed to (its contents
never influence the resolver's control flow); the memo map
`tokenizer_map : HashMap<String, Option<UnifiedTokenizer>>` becomes an
association list from model id to `Option TokFormat`. The helpers living
outside the two source files (`strip_model_from_finetune`,
`canonical_path`, `url::Url` parsing, `default_hf_tokenizer_template`) are
abstract world parameters. The whole call runs under the process-wide
`tokenizer_download_lock`, so it is modelled as one atomic state
transition. -/

/-- Memo map of the global context: first match wins, as in a hash map. -/
abbrev TokenizerMap := List (String × Option TokFormat)

/-- Lookup model of `tokenizer_map.get(&model_id)`. -/
def lookupMemo (m : TokenizerMap) (k : String) : Option (Option TokFormat) :=
  (m.find? (fun p => p.1 == k)).map (fun p => p.2)

/-- Insertion model of `tokenizer_map.insert(model_id, v)`. -/
def insertMemo (m : TokenizerMap) (k : String) (v : Option TokFormat) : TokenizerMap :=
  (k, v) :: m

/-- Model of `BaseModelRecord` (caps.rs, external), restricted to the
fields `cached_tokenizer` reads. -/
structure BaseModelRecord where
  id : String
  tokenizer : String
  tokenizer_api_key : String

/-- World of one resolver call: the filesystem, the per-attempt fetch
outcomes, the global-context constants, and abstract models of the
external helpers (`strip_model_from_finetune`; the `file://`-URL /
`canonical_path` resolution of a local tokenizer descriptor, which may
fail for an invalid `file://` URL; the fresh uuid of the temporary file). -/
structure ResolveWorld where
  fs : FileSystem
  fetchEnv : Nat → AttemptEnv
  cacheDir : FsPath
  hfTemplate : String
  tempDir : FsPath
  uuid : String
  stripFinetune : String → String
  localPath : String → Except String FsPath

/-- Model of the sanitization `model_id.chars().map(|c| if
c.is_alphanumeric() { c } else { '_' })` (tokens.rs, lines 274-276). -/
def sanitizeId (id : String) : String :=
  String.mk (id.data.map (fun c => if c.isAlphanum then c else '_'))

/-- Result of one resolver call: the returned value, the new memo map, and
the trace of network/filesystem events performed. -/
structure ResolveOutcome where
  result : Except String (Option TokFormat)
  memo : TokenizerMap
  events : List FetchEvent

/-- Model of `cached_tokenizer` (tokens.rs, lines 229-291): normalize the
id, answer from the memo on a hit; otherwise classify the descriptor
(empty → error, `fake*` → `Ok(None)`, `hf://` → templated URL, `http(s)://`
→ direct URL, else local path); for URL sources compute the cache path,
run the Fetcher, and propagate its error; finally run the format detector
and, on success only, memoize `Some` of the constructed tokenizer. -/
def cached_tokenizer (w : ResolveWorld) (memo : TokenizerMap) (rec : BaseModelRecord) :
    ResolveOutcome :=
  let model_id := w.stripFinetune rec.id
  match lookupMemo memo model_id with
  | some entry => { result := Except.ok entry, memo := memo, events := [] }
  | none =>
    if rec.tokenizer.data.isEmpty then
      { result := Except.error ("failed to load tokenizer: empty tokenizer for " ++ model_id)
        memo := memo, events := [] }
    else if strStartsWith rec.tokenizer "fake" then
      { result := Except.ok none, memo := memo, events := [] }
    else
      let pathUrl : Except String (FsPath × String) :=
        if strStartsWith rec.tokenizer "hf://" then
          Except.ok ([], strReplace w.hfTemplate "$HF_MODEL" (String.mk (rec.tokenizer.data.drop 5)))
        else if strStartsWith rec.tokenizer "http://" || strStartsWith rec.tokenizer "https://" then
          Except.ok ([], rec.tokenizer)
        else
          (w.localPath rec.tokenizer).map (fun p => (p, ""))
      match pathUrl with
      | Except.error e => { result := Except.error e, memo := memo, events := [] }
      | Except.ok (p0, url) =>
        if p0.isEmpty then
          let tokPath := w.cacheDir ++ ["tokenizers", sanitizeId model_id, "tokenizer.json"]
          let g : FetchGlobals :=
            { url := url, auth := !rec.tokenizer_api_key.isEmpty
              tempDir := w.tempDir, uuid := w.uuid, targetPath := tokPath }
          let fetched := try_download_tokenizer_file_and_open w.fs w.fetchEnv g
          match fetched.1 with
          | Except.error e => { result := Except.error e, memo := memo, events := fetched.2 }
          | Except.ok _ =>
            match detect_and_load_tokenizer w.fs tokPath with
            | Except.error e => { result := Except.error e, memo := memo, events := fetched.2 }
            | Except.ok fmt =>
              { result := Except.ok (some fmt)
                memo := insertMemo memo model_id (some fmt)
                events := fetched.2 }
        else
          match detect_and_load_tokenizer w.fs p0 with
          | Except.error e => { result := Except.error e, memo := memo, events := [] }
          | Except.ok fmt =>
            { result := Except.ok (some fmt)
              memo := insertMemo memo model_id (some fmt)
              events := [] }

/-! ### Trace predicates used by the claims about the Fetcher -/

/-- Recognizer of attempt-start events. -/
def isAttemptEv : FetchEvent → Bool
  | FetchEvent.attemptStart _ => true
  | _ => false

/-- Recognizer of sleep events. -/
def isSleepEv : FetchEvent → Bool
  | FetchEvent.sleep _ => true
  | _ => false

/-- Recognizer of error-recording events. -/
def isRecordEv : FetchEvent → Bool
  | FetchEvent.recordError _ => true
  | _ => false

/-- Recognizer of atomic-rename events. -/
def isRenameEv : FetchEvent → Bool
  | FetchEvent.renameFile _ _ => true
  | _ => false

/-- Events that only the loop skeleton, not an attempt body, may emit. -/
def notLoopEv (e : FetchEvent) : Bool :=
  !(isSleepEv e) && !(isAttemptEv e) && !(isRecordEv e)

/-- The sleep/attempt skeleton the retry loop is claimed to follow when
`n` attempts starting at index `i` occur: a 200ms sleep before every
attempt except attempt 0. -/
def altPattern : Nat → Nat → List FetchEvent
  | _, 0 => []
  | i, n + 1 =>
    (if i == 0 then [] else [FetchEvent.sleep 200]) ++
      (FetchEvent.attemptStart i :: altPattern (i + 1) n)

/-- Folding step computing the message of the last `recordError` event. -/
def lastErrStep (acc : Option String) (e : FetchEvent) : Option String :=
  match e with
  | FetchEvent.recordError m => some m
  | _ => acc

/-- Message of the last recorded failure in a trace, if any. -/
def lastRecordedError (l : List FetchEvent) : Option String :=
  l.foldl lastErrStep none

/-- Per-event write discipline of the Fetcher: downloaded bytes are only
ever written to the temporary path, the only copy performed is from the
temporary path to the target, and no atomic rename is ever performed. -/
def fetchEventBenign (g : FetchGlobals) : FetchEvent → Bool
  | FetchEvent.writeDownloaded p => p == g.tmpPath
  | FetchEvent.copyFile a b => a == g.tmpPath && b == g.targetPath
  | FetchEvent.renameFile _ _ => false
  | _ => true

/-- Folding step of the validate-before-copy check: the first component
records whether every copy so far was preceded by a successful validation
of the temporary file, the second whether such a validation has been
seen. -/
def cavStep (tmp : FsPath) (st : Bool × Bool) : FetchEvent → Bool × Bool
  | FetchEvent.validate p v => (st.1, st.2 || (p == tmp && v))
  | FetchEvent.copyFile _ _ => (st.1 && st.2, st.2)
  | _ => st

/-- Every copy in the trace is preceded by a successful validation of the
temporary file. -/
def copiesAfterValidation (tmp : FsPath) (l : List FetchEvent) : Bool :=
  (l.foldl (cavStep tmp) (true, false)).1

/-! ### Concrete worlds used by witnesses and counterexamples -/

/-- Empty filesystem. -/
def fsTriv : FileSystem := ⟨fun _ => false, fun _ => false, fun _ => false, fun _ => false⟩

/-- Attempt environment in which every HTTP request fails. -/
def envFail : Nat → AttemptEnv := fun _ => ⟨none, some "connection refused", false, none, none⟩

/-- Attempt environment in which the first attempt fully succeeds. -/
def envOk : Nat → AttemptEnv := fun _ => ⟨none, none, true, none, none⟩

/-- Concrete fetch constants. -/
def gT : FetchGlobals :=
  { url := "https://x", auth := false, tempDir := ["tmp"], uuid := "u1",
    targetPath := ["cache", "t.json"] }

/-- Concrete resolver world over the empty filesystem with failing
network. -/
def wFake : ResolveWorld :=
  { fs := fsTriv, fetchEnv := envFail, cacheDir := ["cache"],
    hfTemplate := "https://hf/$HF_MODEL/t.json", tempDir := ["tmp"], uuid := "u1",
    stripFinetune := fun s => s, localPath := fun _ => Except.error "bad path" }

/-- Filesystem of the C3 counterexample: directory `a` holds the file
`a/x.model` (whose bytes are not a valid tokenizer JSON) and a fully
parsing `a/tokenizer.json`. -/
def fsC3 : FileSystem :=
  { isDir := fun p => p == ["a"]
    isFile := fun p => p == ["a", "x.model"] || p == ["a", "tokenizer.json"]
    pathExists := fun p => p == ["a"] || p == ["a", "x.model"] || p == ["a", "tokenizer.json"]
    validTokenizerJson := fun p => p == ["a", "tokenizer.json"] }

/-- Filesystem holding only a byte-pair table `b/tiktoken.model`. -/
def fsB : FileSystem :=
  { isDir := fun p => p == ["b"]
    isFile := fun p => p == ["b", "tiktoken.model"]
    pathExists := fun p => p == ["b"] || p == ["b", "tiktoken.model"]
    validTokenizerJson := fun _ => false }

/-- Concrete byte-pair engine for witnesses: three tokens per text, every
id decodes to a two-byte string. -/
def bpeW : CoreBPE := ⟨fun _ => [1, 2, 3], fun _ => some "ab"⟩

/-- Concrete TikToken wrapper for witnesses. -/
def wTik : TikTokenWrapper :=
  { tokenizer := bpeW, config := ⟨[], none, none⟩, truncation := none, padding := none }

/-- Concrete HuggingFace engine whose encode always fails. -/
def hfErr : HFTokenizer :=
  { encodeWith := fun _ _ _ _ => Except.error "boom", truncation := none, padding := none }

/-- Sum of the UTF-8 byte lengths of a list of strings. -/
def sumBytes (l : List String) : Nat := (l.map String.utf8ByteSize).sum

/-! ## Theorems -/

theorem buildOffsets_length (l : List String) (c : Nat) :
    (buildOffsets l c).length = l.length := by
  induction l generalizing c with
  | nil => rfl
  | cons s rest ih => simp [buildOffsets, ih]

theorem buildOffsets_formula (l : List String) (c : Nat) :
    buildOffsets l c = (List.range l.length).map
      (fun i => (c + sumBytes (l.take i), c + sumBytes (l.take (i + 1)))) := by
  induction l generalizing c with
  | nil => rfl
  | cons s rest ih =>
    rw [buildOffsets, ih]
    simp only [List.length_cons, List.range_succ_eq_map, List.map_cons, List.map_map,
      List.cons.injEq]
    refine ⟨?_, ?_⟩
    · simp [sumBytes]
    · apply List.map_congr_left
      simp only [List.mem_range, Function.comp_apply, sumBytes, Nat.succ_eq_add_one,
        List.take_succ_cons, List.map_cons, List.sum_cons, Prod.mk.injEq]
      intro i hi
      omega

theorem buildOffsets_chain (l : List String) (c : Nat) :
    List.Chain' (fun a b : Nat × Nat => a.2 = b.1) (buildOffsets l c) := by
  induction l generalizing c with
  | nil => simp [buildOffsets]
  | cons s rest ih =>
    cases rest with
    | nil => simp [buildOffsets]
    | cons t rest2 =>
      rw [buildOffsets, buildOffsets, List.chain'_cons]
      exact ⟨rfl, by rw [← buildOffsets]; exact ih _⟩

theorem buildOffsets_le (l : List String) (c : Nat) :
    (buildOffsets l c).all (fun pr => pr.1 ≤ pr.2) = true := by
  induction l generalizing c with
  | nil => rfl
  | cons s rest ih => simp [buildOffsets, ih]

/-- C7: `count_text_tokens_with_fallback` is total: with no tokenizer it
returns the estimate `1 + floor(2 * byte_length / 7)`; with a tokenizer
it returns the encoded token count on success and the same estimate on an
encode failure; on `"hello"` with no tokenizer it returns 2. -/
theorem count_with_fallback_spec :
    (∀ text, count_text_tokens_with_fallback none text = 1 + 2 * text.utf8ByteSize / 7)
    ∧ (∀ t text n, t.encodeLen text false = Except.ok n →
        count_text_tokens_with_fallback (some t) text = n)
    ∧ (∀ t text e, t.encodeLen text false = Except.error e →
        count_text_tokens_with_fallback (some t) text = 1 + 2 * text.utf8ByteSize / 7)
    ∧ count_text_tokens_with_fallback none "hello" = 2 := by
  refine ⟨fun text => ?_, fun t text n h => ?_, fun t text e h => ?_, by decide⟩
  · simp [count_text_tokens_with_fallback, count_text_tokens, estimate_tokens, Nat.mul_comm]
  · simp [count_text_tokens_with_fallback, count_text_tokens, h]
  · simp [count_text_tokens_with_fallback, count_text_tokens, h, estimate_tokens, Nat.mul_comm]

/-- Witness for C7: a byte-pair tokenizer that encodes three tokens gives
count 3, and a vocabulary tokenizer whose engine fails falls back to the
estimate (2 for `"hello"`). -/
theorem count_with_fallback_spec_witness :
    count_text_tokens_with_fallback (some (UnifiedTokenizer.TikToken wTik)) "xyz" = 3
    ∧ count_text_tokens_with_fallback (some (UnifiedTokenizer.HuggingFace hfErr)) "hello" = 2 :=
  ⟨count_with_fallback_spec.2.1 (UnifiedTokenizer.TikToken wTik) "xyz" 3 rfl,
    (count_with_fallback_spec.2.2.1 (UnifiedTokenizer.HuggingFace hfErr) "hello"
      "HuggingFace tokenizer error: boom" rfl).trans (by decide)⟩

/-- C9: the byte-pair adapter's offsets are exactly the accumulated byte
lengths of the per-token decoded strings (with the `token_<id>`
placeholder standing in for an id that fails to decode): the i-th offset
pair is (sum of lengths before i, that sum plus the i-th length), so
consecutive offsets abut and every pair is ordered. -/
theorem tiktoken_offsets_spec (w : TikTokenWrapper) (text : String) :
    (w.encodeEncoding text).tokens = (w.encodeEncoding text).ids.map
      (fun id => ((w.tokenizer.decodeOne id).getD ("token_" ++ Nat.repr id)))
    ∧ (w.encodeEncoding text).offsets = (List.range (w.encodeEncoding text).tokens.length).map
        (fun i => (sumBytes ((w.encodeEncoding text).tokens.take i),
          sumBytes ((w.encodeEncoding text).tokens.take (i + 1))))
    ∧ List.Chain' (fun a b : Nat × Nat => a.2 = b.1) (w.encodeEncoding text).offsets
    ∧ (w.encodeEncoding text).offsets.all (fun pr => pr.1 ≤ pr.2) = true := by
  refine ⟨rfl, ?_, ?_, ?_⟩
  · have h := buildOffsets_formula ((w.encodeEncoding text).tokens) 0
    simpa [TikTokenWrapper.encodeEncoding] using h
  · exact buildOffsets_chain _ _
  · exact buildOffsets_le _ _

/-- C10: every parallel sequence of the Encoding built by the byte-pair
adapter — type ids, token strings, word ids, offsets, special-token mask,
attention mask — has exactly the length of the id sequence, for every
input text and truncation/padding configuration, and `encode_fast` always
returns it as `Ok`. -/
theorem tiktoken_encoding_consistent (w : TikTokenWrapper) (text : String) (b : Bool) :
    w.encode_fast text b = Except.ok (w.encodeEncoding text)
    ∧ (w.encodeEncoding text).type_ids.length = (w.encodeEncoding text).ids.length
    ∧ (w.encodeEncoding text).tokens.length = (w.encodeEncoding text).ids.length
    ∧ (w.encodeEncoding text).word_ids.length = (w.encodeEncoding text).ids.length
    ∧ (w.encodeEncoding text).offsets.length = (w.encodeEncoding text).ids.length
    ∧ (w.encodeEncoding text).special_tokens_mask.length = (w.encodeEncoding text).ids.length
    ∧ (w.encodeEncoding text).attention_mask.length = (w.encodeEncoding text).ids.length := by
  refine ⟨rfl, ?_, ?_, ?_, ?_, ?_, ?_⟩ <;>
    simp [TikTokenWrapper.encodeEncoding, buildOffsets_length]

/-- C6: `with_truncation` / `with_padding` on a shared tokenizer cell
allocate a fresh cell holding the reconfigured clone of the inner engine;
every pre-existing cell — in particular the one other holders share — is
untouched, so the encode behavior observed through any old cell id is
unchanged. -/
theorem with_truncation_copy_on_write (s : TokStore) (h i : Nat) (t : UnifiedTokenizer)
    (tr : Option TruncationParams) (pd : Option PaddingParams)
    (hget : storeGet s h = some t) (hi : i < s.length) :
    (storeGet (withTruncationShared s h tr).1 i = storeGet s i
      ∧ storeGet (withTruncationShared s h tr).1 (withTruncationShared s h tr).2
          = some (t.with_truncation tr)
      ∧ ∀ text b, encodeAt (withTruncationShared s h tr).1 i text b = encodeAt s i text b)
    ∧ (storeGet (withPaddingShared s h pd).1 i = storeGet s i
      ∧ storeGet (withPaddingShared s h pd).1 (withPaddingShared s h pd).2
          = some (t.with_padding pd)
      ∧ ∀ text b, encodeAt (withPaddingShared s h pd).1 i text b = encodeAt s i text b) := by
  have hfr : ∀ (x : UnifiedTokenizer), storeGet (s ++ [x]) i = storeGet s i :=
    fun x => List.getElem?_append_left hi
  have hlast : ∀ (x : UnifiedTokenizer), storeGet (s ++ [x]) s.length = some x :=
    fun x => List.getElem?_concat_length s x
  constructor
  · simp only [withTruncationShared, hget]
    exact ⟨hfr _, hlast _, fun text b => by simp only [encodeAt, hfr _]⟩
  · simp only [withPaddingShared, hget]
    exact ⟨hfr _, hlast _, fun text b => by simp only [encodeAt, hfr _]⟩

/-- Witness for C6 at a concrete two-cell store. -/
theorem with_truncation_copy_on_write_witness :
    storeGet (withTruncationShared [UnifiedTokenizer.TikToken wTik] 0 (some ⟨7⟩)).1 0
        = storeGet [UnifiedTokenizer.TikToken wTik] 0
    ∧ storeGet (withPaddingShared [UnifiedTokenizer.TikToken wTik] 0 (some ⟨⟩)).1 0
        = storeGet [UnifiedTokenizer.TikToken wTik] 0 :=
  ⟨((with_truncation_copy_on_write [UnifiedTokenizer.TikToken wTik] 0 0
      (UnifiedTokenizer.TikToken wTik) (some ⟨7⟩) (some ⟨⟩) rfl (by decide)).1).1,
    ((with_truncation_copy_on_write [UnifiedTokenizer.TikToken wTik] 0 0
      (UnifiedTokenizer.TikToken wTik) (some ⟨7⟩) (some ⟨⟩) rfl (by decide)).2).1⟩

/-- Counterexample to C3 as stated: `a/x.model` is a `.model`-suffixed
file whose own bytes are not a valid tokenizer, yet because its parent
directory holds a fully parsing `a/tokenizer.json` the detector classifies
it as FormatA, not FormatB — the `.model` branch does not fire
unconditionally. -/
theorem detect_model_file_counterexample :
    fsC3.isFile ["a", "x.model"] = true
    ∧ pathExt ["a", "x.model"] = some "model"
    ∧ check_json_file fsC3 ["a", "x.model"] = false
    ∧ detect_and_load_tokenizer fsC3 ["a", "x.model"] = Except.ok TokFormat.FormatA
    ∧ detect_and_load_tokenizer fsC3 ["a", "x.model"] ≠ Except.ok TokFormat.FormatB := by
  refine ⟨rfl, rfl, rfl, rfl, ?_⟩
  intro hcontra
  have : TokFormat.FormatA = TokFormat.FormatB := by
    have h0 : detect_and_load_tokenizer fsC3 ["a", "x.model"] = Except.ok TokFormat.FormatA := rfl
    exact Except.ok.inj (h0.symm.trans hcontra)
  exact TokFormat.noConfusion this

/-- C3 (amended): full classification of `detect_and_load_tokenizer`.
For a directory: fully-parsing `tokenizer.json` → FormatA, else present
`tiktoken.model` → FormatB, else unrecognized. For a non-directory: a
`.json` extension validates the file itself (FormatA on success, else
unrecognized); for any other extension the parent directory's
`tokenizer.json` is searched first and yields FormatA when it parses;
only otherwise does a `.model`-suffixed file yield FormatB (regardless of
its own content validity), anything else being unrecognized. -/
theorem detect_classification (fs : FileSystem) (p : FsPath) :
    (fs.isDir p = true →
      (check_json_file fs (pathJoin p "tokenizer.json") = true →
          detect_and_load_tokenizer fs p = Except.ok TokFormat.FormatA)
      ∧ (check_json_file fs (pathJoin p "tokenizer.json") = false →
          fs.pathExists (pathJoin p "tiktoken.model") = true →
          detect_and_load_tokenizer fs p = Except.ok TokFormat.FormatB)
      ∧ (check_json_file fs (pathJoin p "tokenizer.json") = false →
          fs.pathExists (pathJoin p "tiktoken.model") = false →
          detect_and_load_tokenizer fs p = Except.error "No valid tokenizer format found"))
    ∧ (fs.isDir p = false →
      (pathExt p = some "json" →
        (check_json_file fs p = true →
            detect_and_load_tokenizer fs p = Except.ok TokFormat.FormatA)
        ∧ (check_json_file fs p = false →
            detect_and_load_tokenizer fs p = Except.error "No valid tokenizer format found"))
      ∧ (pathExt p ≠ some "json" →
        (check_json_file fs (pathJoin (parentOrSelf p) "tokenizer.json") = true →
            detect_and_load_tokenizer fs p = Except.ok TokFormat.FormatA)
        ∧ (check_json_file fs (pathJoin (parentOrSelf p) "tokenizer.json") = false →
            fs.isFile p = true → pathExt p = some "model" →
            detect_and_load_tokenizer fs p = Except.ok TokFormat.FormatB)
        ∧ (check_json_file fs (pathJoin (parentOrSelf p) "tokenizer.json") = false →
            fs.isFile p = true → pathExt p ≠ some "model" →
            detect_and_load_tokenizer fs p
              = Except.error "No valid tokenizer format found"))) := by
  constructor
  · intro hdir
    refine ⟨fun hjson => ?_, fun hjson htik => ?_, fun hjson htik => ?_⟩
    · have hex := (Bool.and_eq_true _ _ |>.mp hjson).1
      simp [detect_and_load_tokenizer, hdir, hjson, hex]
    · simp [detect_and_load_tokenizer, is_tiktoken_format, hdir, hjson, htik]
    · simp [detect_and_load_tokenizer, is_tiktoken_format, hdir, hjson, htik]
  · intro hdir
    constructor
    · intro hext
      have hbe : (pathExt p == some "json") = true := beq_iff_eq.mpr hext
      refine ⟨fun hjson => ?_, fun hjson => ?_⟩
      · have hex := (Bool.and_eq_true _ _ |>.mp hjson).1
        simp [detect_and_load_tokenizer, hdir, hbe, hjson, hex]
      · cases hfile : fs.isFile p <;>
          simp [detect_and_load_tokenizer, is_tiktoken_format, hdir, hbe, hjson, hfile, hext]
    · intro hext
      have hbe : (pathExt p == some "json") = false := by
        simp only [beq_eq_false_iff_ne, ne_eq]
        exact hext
      refine ⟨fun hjson => ?_, fun hjson hfile hmodel => ?_, fun hjson hfile hmodel => ?_⟩
      · have hex := (Bool.and_eq_true _ _ |>.mp hjson).1
        simp [detect_and_load_tokenizer, hdir, hbe, hjson, hex]
      · have hmb : (pathExt p == some "model") = true := beq_iff_eq.mpr hmodel
        simp [detect_and_load_tokenizer, is_tiktoken_format, hdir, hbe, hjson, hfile, hmb]
      · have hmb : (pathExt p == some "model") = false := by
          simp only [beq_eq_false_iff_ne, ne_eq]
          exact hmodel
        simp [detect_and_load_tokenizer, is_tiktoken_format, hdir, hbe, hjson, hfile, hmb]

/-- Witness for C3: on the concrete filesystems, a directory with a valid
vocabulary JSON classifies FormatA, and a lone `.model` file (no sibling
tokenizer JSON) classifies FormatB. -/
theorem detect_classification_witness :
    detect_and_load_tokenizer fsC3 ["a"] = Except.ok TokFormat.FormatA
    ∧ detect_and_load_tokenizer fsB ["b", "tiktoken.model"] = Except.ok TokFormat.FormatB :=
  ⟨((detect_classification fsC3 ["a"]).1 rfl).1 rfl,
    (((detect_classification fsB ["b", "tiktoken.model"]).2 rfl).2 (by decide)).2.1 rfl rfl rfl⟩

theorem lookupMemo_insert (m : TokenizerMap) (k id : String) (v : Option TokFormat) :
    lookupMemo (insertMemo m k v) id = if (k == id) then some v else lookupMemo m id := by
  simp only [lookupMemo, insertMemo, List.find?]
  cases hk : (k == id) <;> simp [hk]

/-- A tokenizer descriptor starting with `"fake"` is not the empty
string. -/
theorem not_empty_of_fake (t : String) (h : strStartsWith t "fake" = true) :
    t.data.isEmpty = false := by
  cases hd : t.data with
  | nil =>
    rw [strStartsWith, hd] at h
    simp [List.isPrefixOf] at h
  | cons c cs => rfl

/-- C8: on a memo miss, an empty tokenizer descriptor makes
`cached_tokenizer` fail with the descriptive empty-tokenizer error, while
a descriptor starting with `"fake"` makes it succeed with `Ok(None)`; both
outcomes leave the memo untouched and perform no filesystem or network
event, and they are never conflated. -/
theorem cached_tokenizer_empty_vs_fake (w : ResolveWorld) (memo : TokenizerMap)
    (rec : BaseModelRecord)
    (hmiss : lookupMemo memo (w.stripFinetune rec.id) = none) :
    (rec.tokenizer = "" →
      cached_tokenizer w memo rec =
        { result := Except.error
            ("failed to load tokenizer: empty tokenizer for " ++ w.stripFinetune rec.id)
          memo := memo, events := [] })
    ∧ (strStartsWith rec.tokenizer "fake" = true →
      cached_tokenizer w memo rec = { result := Except.ok none, memo := memo, events := [] }) := by
  constructor
  · intro hempty
    have he : rec.tokenizer.data.isEmpty = true := by
      rw [hempty]
      rfl
    simp [cached_tokenizer, hmiss, he]
  · intro hfake
    have hne : rec.tokenizer.data.isEmpty = false := not_empty_of_fake rec.tokenizer hfake
    simp [cached_tokenizer, hmiss, hne, hfake]

/-- Witness for C8 at a concrete world: empty descriptor errors, `"fake"`
descriptor yields `Ok(None)`. -/
theorem cached_tokenizer_empty_vs_fake_witness :
    cached_tokenizer wFake [] ⟨"m", "", ""⟩ =
      { result := Except.error "failed to load tokenizer: empty tokenizer for m"
        memo := [], events := [] }
    ∧ cached_tokenizer wFake [] ⟨"m", "fake", ""⟩ =
      { result := Except.ok none, memo := [], events := [] } :=
  ⟨(cached_tokenizer_empty_vs_fake wFake [] ⟨"m", "", ""⟩ rfl).1 rfl,
    (cached_tokenizer_empty_vs_fake wFake [] ⟨"m", "fake", ""⟩ rfl).2 rfl⟩

/-- C5: whenever `cached_tokenizer` returns an error — empty descriptor,
invalid `file://` URL, fetch exhaustion, or unrecognized format — the memo
map is returned unchanged; moreover no call ever adds a `None` entry to
the memo, so a transient failure is never negatively cached. -/
theorem cached_tokenizer_no_negative_caching (w : ResolveWorld) (memo : TokenizerMap)
    (rec : BaseModelRecord) :
    (∀ e, (cached_tokenizer w memo rec).result = Except.error e →
      (cached_tokenizer w memo rec).memo = memo)
    ∧ (∀ id, lookupMemo (cached_tokenizer w memo rec).memo id = some none →
        lookupMemo memo id = some none) := by
  constructor
  · intro e
    simp only [cached_tokenizer]
    repeat' split
    all_goals intro h
    all_goals simp_all
  · intro id
    simp only [cached_tokenizer]
    repeat' split
    all_goals intro h
    all_goals first
      | exact h
      | (simp only [lookupMemo_insert] at h
         split at h
         · simp at h
         · exact h)

/-- Witness for C5: the error case leaves the memo unchanged at a concrete
input, and a pre-existing explicit `None` entry is the only way a `None`
can be found after a call. -/
theorem cached_tokenizer_no_negative_caching_witness :
    (cached_tokenizer wFake [] ⟨"m", "", ""⟩).memo = []
    ∧ lookupMemo [("x", (none : Option TokFormat))] "x" = some none :=
  ⟨(cached_tokenizer_no_negative_caching wFake [] ⟨"m", "", ""⟩).1
      "failed to load tokenizer: empty tokenizer for m" rfl,
    (cached_tokenizer_no_negative_caching wFake [("x", none)] ⟨"m", "fake", ""⟩).2 "x" rfl⟩

/-- Counterexample to C1 as stated: resolving a model whose descriptor is
the `"fake"` marker returns `Ok(None)` but does not memoize anything — the
memo still has no entry for the model id afterwards (the claim asserts an
explicit `None` entry is inserted and later calls are answered from it). -/
theorem fake_not_memoized_counterexample :
    (cached_tokenizer wFake [] ⟨"m", "fake", ""⟩).result = Except.ok none
    ∧ lookupMemo (cached_tokenizer wFake [] ⟨"m", "fake", ""⟩).memo
        (wFake.stripFinetune "m") = none :=
  ⟨rfl, rfl⟩

/-- C1 (amended): every resolution of a model whose descriptor starts with
the `"fake"` marker — first or subsequent — takes the early-return branch:
it returns `Ok(None)` with zero filesystem or network events and leaves
the memo exactly as it was (no `None` entry is ever inserted for it), as
long as no entry for the model id is present in the memo. -/
theorem fake_descriptor_resolution (w : ResolveWorld) (memo : TokenizerMap)
    (rec : BaseModelRecord)
    (hfake : strStartsWith rec.tokenizer "fake" = true)
    (hmiss : lookupMemo memo (w.stripFinetune rec.id) = none) :
    cached_tokenizer w memo rec = { result := Except.ok none, memo := memo, events := [] } := by
  have hne : rec.tokenizer.data.isEmpty = false := not_empty_of_fake rec.tokenizer hfake
  simp [cached_tokenizer, hmiss, hne, hfake]

/-- Witness for C1 at a concrete world, applied twice in a row: the second
call starts from the first call's memo and behaves identically. -/
theorem fake_descriptor_resolution_witness :
    cached_tokenizer wFake [] ⟨"m", "fake", ""⟩ =
      { result := Except.ok none, memo := [], events := [] }
    ∧ cached_tokenizer wFake (cached_tokenizer wFake [] ⟨"m", "fake", ""⟩).memo
        ⟨"m", "fake", ""⟩ =
      { result := Except.ok none, memo := [], events := [] } :=
  ⟨fake_descriptor_resolution wFake [] ⟨"m", "fake", ""⟩ rfl rfl,
    fake_descriptor_resolution wFake (cached_tokenizer wFake [] ⟨"m", "fake", ""⟩).memo
      ⟨"m", "fake", ""⟩ rfl rfl⟩

theorem body_props_of_all (l : List FetchEvent) (h : l.all notLoopEv = true) :
    l.filter isAttemptEv = []
    ∧ l.filter (fun e => isSleepEv e || isAttemptEv e) = []
    ∧ ∀ acc, l.foldl lastErrStep acc = acc := by
  induction l with
  | nil => exact ⟨rfl, rfl, fun _ => rfl⟩
  | cons e rest ih =>
    rw [List.all_cons, Bool.and_eq_true] at h
    obtain ⟨he, hrest⟩ := h
    obtain ⟨h1, h2, h3⟩ := ih hrest
    rw [notLoopEv, Bool.and_eq_true, Bool.and_eq_true] at he
    obtain ⟨⟨hs, ha⟩, hr⟩ := he
    rw [Bool.not_eq_true'] at hs ha hr
    refine ⟨?_, ?_, fun acc => ?_⟩
    · simp [List.filter, ha, h1]
    · simp [List.filter, ha, hs, h2]
    · rw [List.foldl_cons, show lastErrStep acc e = acc from ?_, h3]
      cases e <;> simp_all [lastErrStep, isRecordEv]

theorem afterDownload_events (a : AttemptEnv) (g : FetchGlobals) (ts2 : TmpState)
    (evs : List FetchEvent)
    (h1 : evs.all notLoopEv = true)
    (h2 : evs.all (fetchEventBenign g) = true)
    (h3 : ∀ st : Bool × Bool, (evs.foldl (cavStep g.tmpPath) st).1 = st.1) :
    ((afterDownload a g ts2 evs).2.2.all notLoopEv = true)
    ∧ ((afterDownload a g ts2 evs).2.2.all (fetchEventBenign g) = true)
    ∧ (∀ st : Bool × Bool, ((afterDownload a g ts2 evs).2.2.foldl (cavStep g.tmpPath) st).1
        = st.1) := by
  unfold afterDownload
  repeat' split
  all_goals refine ⟨?_, ?_, fun st => ?_⟩
  all_goals simp [List.all_append, h1, h2, List.foldl_append, h3, notLoopEv,
    fetchEventBenign, cavStep, isSleepEv, isAttemptEv, isRecordEv]

theorem runAttempt_events (a : AttemptEnv) (g : FetchGlobals) (ts : TmpState) :
    ((runAttempt a g ts).2.2.all notLoopEv = true)
    ∧ ((runAttempt a g ts).2.2.all (fetchEventBenign g) = true)
    ∧ (∀ st : Bool × Bool, ((runAttempt a g ts).2.2.foldl (cavStep g.tmpPath) st).1 = st.1) := by
  unfold runAttempt
  have base1 : ∀ q, ([FetchEvent.createDirAll q] : List FetchEvent).all notLoopEv = true := by
    intro q
    rfl
  split
  · exact ⟨base1 _, by simp [fetchEventBenign], fun st => rfl⟩
  · split
    · exact afterDownload_events a g ts _ (base1 _) (by simp [fetchEventBenign]) (fun st => rfl)
    · split
      · refine ⟨rfl, ?_, fun st => rfl⟩
        simp [fetchEventBenign]
      · refine afterDownload_events a g (some a.bodyValid) _ rfl ?_ (fun st => rfl)
        simp [fetchEventBenign]

theorem preEvents_filter_att (i : Nat) :
    (preEvents i).filter isAttemptEv = [FetchEvent.attemptStart i] := by
  cases h : (i == 0) <;> simp [preEvents, h, isAttemptEv, List.filter]

theorem preEvents_filter_sa (i : Nat) :
    (preEvents i).filter (fun e => isSleepEv e || isAttemptEv e) = preEvents i := by
  cases h : (i == 0) <;> simp [preEvents, h, isAttemptEv, isSleepEv, List.filter]

theorem preEvents_foldl_err (i : Nat) (acc : Option String) :
    (preEvents i).foldl lastErrStep acc = acc := by
  cases h : (i == 0) <;> simp [preEvents, h, lastErrStep]

theorem preEvents_all_benign (g : FetchGlobals) (i : Nat) :
    (preEvents i).all (fetchEventBenign g) = true := by
  cases h : (i == 0) <;> simp [preEvents, h, fetchEventBenign]

theorem preEvents_cav (tmp : FsPath) (i : Nat) (st : Bool × Bool) :
    ((preEvents i).foldl (cavStep tmp) st).1 = st.1 := by
  cases h : (i == 0) <;> simp [preEvents, h, cavStep]

theorem altPattern_succ (i n : Nat) :
    altPattern i (n + 1)
      = (if i == 0 then [] else [FetchEvent.sleep 200])
        ++ (FetchEvent.attemptStart i :: altPattern (i + 1) n) := rfl

theorem fetchLoop_char (env : Nat → AttemptEnv) (g : FetchGlobals) :
    ∀ count i ts le,
      (((fetchLoop env g count i ts le).2.filter isAttemptEv).length ≤ count)
      ∧ ((fetchLoop env g count i ts le).2.filter (fun e => isSleepEv e || isAttemptEv e)
          = altPattern i (((fetchLoop env g count i ts le).2.filter isAttemptEv).length))
      ∧ (∀ msg, (fetchLoop env g count i ts le).1 = Except.error msg →
          ((((fetchLoop env g count i ts le).2.filter isAttemptEv).length = count)
            ∧ (count = 0 → msg = le ∧ (fetchLoop env g count i ts le).2 = [])
            ∧ (0 < count → ∀ acc, (fetchLoop env g count i ts le).2.foldl lastErrStep acc
                = some msg))) := by
  intro count
  induction count with
  | zero =>
    intro i ts le
    refine ⟨Nat.le_refl 0, rfl, fun msg h => ?_⟩
    exact ⟨rfl, fun _ => ⟨(Except.error.inj h).symm, rfl⟩, fun h0 => absurd h0 (by omega)⟩
  | succ k ih =>
    intro i ts le
    rcases hra : runAttempt (env i) g ts with ⟨err, ts2, body⟩
    have hbody := runAttempt_events (env i) g ts
    rw [hra] at hbody
    obtain ⟨hb1, _, _⟩ := hbody
    obtain ⟨hf1, hf2, hf3⟩ := body_props_of_all body hb1
    cases err with
    | none =>
      have hev2 : (fetchLoop env g (k + 1) i ts le).2 = preEvents i ++ body := by
        simp only [fetchLoop, hra]
      have hev1 : (fetchLoop env g (k + 1) i ts le).1 = Except.ok () := by
        simp only [fetchLoop, hra]
      have hatt : ((preEvents i ++ body).filter isAttemptEv) = [FetchEvent.attemptStart i] := by
        rw [List.filter_append, preEvents_filter_att, hf1, List.append_nil]
      rw [hev1, hev2, hatt]
      refine ⟨by simp, ?_, fun msg h => absurd h (by simp)⟩
      rw [List.filter_append, preEvents_filter_sa, hf2, List.append_nil]
      show preEvents i = altPattern i 1
      rw [altPattern_succ, preEvents]
      rfl
    | some msg0 =>
      have hev2 : (fetchLoop env g (k + 1) i ts le).2
          = preEvents i ++ body ++ [FetchEvent.recordError msg0]
            ++ (fetchLoop env g k (i + 1) ts2 msg0).2 := by
        simp only [fetchLoop, hra]
      have hev1 : (fetchLoop env g (k + 1) i ts le).1
          = (fetchLoop env g k (i + 1) ts2 msg0).1 := by
        simp only [fetchLoop, hra]
      obtain ⟨ih1, ih2, ih3⟩ := ih (i + 1) ts2 msg0
      have hatt : ((preEvents i ++ body ++ [FetchEvent.recordError msg0]
            ++ (fetchLoop env g k (i + 1) ts2 msg0).2).filter isAttemptEv)
          = FetchEvent.attemptStart i
            :: ((fetchLoop env g k (i + 1) ts2 msg0).2.filter isAttemptEv) := by
        simp [List.filter_append, preEvents_filter_att, hf1, isAttemptEv, List.filter]
      rw [hev1, hev2, hatt]
      refine ⟨?_, ?_, fun msg h => ?_⟩
      · simp only [List.length_cons]
        omega
      · rw [List.filter_append, List.filter_append, List.filter_append, preEvents_filter_sa,
          hf2, List.append_nil]
        rw [show List.filter (fun e => isSleepEv e || isAttemptEv e)
            [FetchEvent.recordError msg0] = [] from rfl, List.append_nil]
        rw [ih2, List.length_cons, altPattern_succ, preEvents, List.append_assoc]
        rfl
      · obtain ⟨ihn, ihz, ihp⟩ := ih3 msg h
        refine ⟨by simp only [List.length_cons]; omega, fun h0 => absurd h0 (by omega),
          fun _ acc => ?_⟩
        rw [List.foldl_append, List.foldl_append, List.foldl_append, preEvents_foldl_err,
          hf3]
        rcases Nat.eq_zero_or_pos k with hk | hk
        · obtain ⟨hmsg, hnil⟩ := ihz hk
          rw [hnil]
          simp [lastErrStep, hmsg]
        · exact ihp hk _

theorem fetchLoop_trace (env : Nat → AttemptEnv) (g : FetchGlobals) :
    ∀ count i ts le,
      ((fetchLoop env g count i ts le).2.all (fetchEventBenign g) = true)
      ∧ (∀ st : Bool × Bool,
          ((fetchLoop env g count i ts le).2.foldl (cavStep g.tmpPath) st).1 = st.1) := by
  intro count
  induction count with
  | zero => exact fun i ts le => ⟨rfl, fun st => rfl⟩
  | succ k ih =>
    intro i ts le
    rcases hra : runAttempt (env i) g ts with ⟨err, ts2, body⟩
    have hbody := runAttempt_events (env i) g ts
    rw [hra] at hbody
    obtain ⟨_, hb2, hb3⟩ := hbody
    cases err with
    | none =>
      have hev2 : (fetchLoop env g (k + 1) i ts le).2 = preEvents i ++ body := by
        simp only [fetchLoop, hra]
      rw [hev2]
      refine ⟨?_, fun st => ?_⟩
      · rw [List.all_append, preEvents_all_benign, hb2]
        rfl
      · rw [List.foldl_append, hb3, preEvents_cav]
    | some msg0 =>
      have hev2 : (fetchLoop env g (k + 1) i ts le).2
          = preEvents i ++ body ++ [FetchEvent.recordError msg0]
            ++ (fetchLoop env g k (i + 1) ts2 msg0).2 := by
        simp only [fetchLoop, hra]
      obtain ⟨ihb, ihc⟩ := ih (i + 1) ts2 msg0
      rw [hev2]
      refine ⟨?_, fun st => ?_⟩
      · rw [List.all_append, List.all_append, List.all_append, preEvents_all_benign, hb2, ihb]
        rfl
      · rw [List.foldl_append, List.foldl_append, List.foldl_append, ihc]
        rw [show ∀ st2 : Bool × Bool,
            List.foldl (cavStep g.tmpPath) st2 [FetchEvent.recordError msg0] = st2
          from fun st2 => rfl]
        rw [hb3, preEvents_cav]

/-- C4: the Fetcher performs at most 15 attempts; its sleep/attempt
skeleton is exactly attempt 0, then a single fixed 200ms sleep before each
subsequent attempt (no delay before the first); and whenever it returns an
error — onto a source that keeps failing — exactly 15 attempts happened
and the returned message is the last recorded failure's message. -/
theorem fetch_retry_policy (fs : FileSystem) (env : Nat → AttemptEnv) (g : FetchGlobals) :
    (((try_download_tokenizer_file_and_open fs env g).2.filter isAttemptEv).length ≤ 15)
    ∧ ((try_download_tokenizer_file_and_open fs env g).2.filter
        (fun e => isSleepEv e || isAttemptEv e)
        = altPattern 0 (((try_download_tokenizer_file_and_open fs env g).2.filter
            isAttemptEv).length))
    ∧ (∀ msg, (try_download_tokenizer_file_and_open fs env g).1 = Except.error msg →
        (((try_download_tokenizer_file_and_open fs env g).2.filter isAttemptEv).length = 15
          ∧ lastRecordedError (try_download_tokenizer_file_and_open fs env g).2
            = some msg)) := by
  unfold try_download_tokenizer_file_and_open
  split
  · exact ⟨Nat.zero_le 15, rfl, fun msg h => absurd h (by simp)⟩
  · obtain ⟨h1, h2, h3⟩ := fetchLoop_char env g 15 0 none ""
    refine ⟨h1, h2, fun msg h => ?_⟩
    obtain ⟨hn, _, hp⟩ := h3 msg h
    exact ⟨hn, hp (by omega) none⟩

/-- Witness for C4: against a network that always fails, the run performs
exactly 15 attempts and returns the last recorded failure message. -/
theorem fetch_retry_policy_witness :
    (((try_download_tokenizer_file_and_open fsTriv envFail gT).2.filter isAttemptEv).length
      = 15)
    ∧ lastRecordedError (try_download_tokenizer_file_and_open fsTriv envFail gT).2
        = some "failed to download tokenizer: connection refused" :=
  (fetch_retry_policy fsTriv envFail gT).2.2
    "failed to download tokenizer: connection refused" rfl

/-- C2 (amended): the Fetcher never writes downloaded bytes to any path
other than the fresh temporary file `temp_dir/<uuid>` (in particular never
directly to the target), every copy it performs goes from that temporary
file to the target and is preceded by a successful validation of the
temporary file — but the relocation is a byte copy, never an atomic
rename. -/
theorem fetch_write_discipline (fs : FileSystem) (env : Nat → AttemptEnv) (g : FetchGlobals)
    (hne : pathJoin g.tempDir g.uuid ≠ g.targetPath) :
    (∀ p, FetchEvent.writeDownloaded p ∈ (try_download_tokenizer_file_and_open fs env g).2 →
        p = pathJoin g.tempDir g.uuid)
    ∧ (∀ p, FetchEvent.writeDownloaded p ∈ (try_download_tokenizer_file_and_open fs env g).2 →
        p ≠ g.targetPath)
    ∧ (∀ a b, FetchEvent.copyFile a b ∈ (try_download_tokenizer_file_and_open fs env g).2 →
        a = pathJoin g.tempDir g.uuid ∧ b = g.targetPath)
    ∧ copiesAfterValidation (pathJoin g.tempDir g.uuid)
        (try_download_tokenizer_file_and_open fs env g).2 = true
    ∧ (try_download_tokenizer_file_and_open fs env g).2.filter isRenameEv = [] := by
  unfold try_download_tokenizer_file_and_open
  split
  · refine ⟨fun p hp => ?_, fun p hp => ?_, fun a b hab => ?_, rfl, rfl⟩
    · simp at hp
    · simp at hp
    · simp at hab
  · obtain ⟨hb, hc⟩ := fetchLoop_trace env g 15 0 none ""
    have hmem : ∀ e ∈ (fetchLoop env g 15 0 none "").2, fetchEventBenign g e = true :=
      List.all_eq_true.mp hb
    refine ⟨fun p hp => ?_, fun p hp => ?_, fun a b hab => ?_, hc (true, false), ?_⟩
    · have hbn := hmem _ hp
      simp only [fetchEventBenign] at hbn
      exact eq_of_beq hbn
    · have hbn := hmem _ hp
      simp only [fetchEventBenign] at hbn
      rw [eq_of_beq hbn]
      exact hne
    · have hbn := hmem _ hab
      simp only [fetchEventBenign, Bool.and_eq_true] at hbn
      exact ⟨eq_of_beq hbn.1, eq_of_beq hbn.2⟩
    · refine List.filter_eq_nil_iff.mpr fun e he => ?_
      have hbn := hmem e he
      cases e <;> simp_all [fetchEventBenign, isRenameEv]

/-- Witness for C2 at a concrete successful run. -/
theorem fetch_write_discipline_witness :
    copiesAfterValidation (pathJoin gT.tempDir gT.uuid)
        (try_download_tokenizer_file_and_open fsTriv envOk gT).2 = true
    ∧ (try_download_tokenizer_file_and_open fsTriv envOk gT).2.filter isRenameEv = [] :=
  ⟨(fetch_write_discipline fsTriv envOk gT (by decide)).2.2.2.1,
    (fetch_write_discipline fsTriv envOk gT (by decide)).2.2.2.2⟩

/-- Counterexample to C2 as stated: a successful fetch run validates the
temporary file and then relocates it with a `copy` event — its trace
contains no rename at all, so the relocation is not the claimed atomic
rename (a reader of the target can observe the partially copied file while
the byte copy is in progress). -/
theorem fetch_copy_not_rename_counterexample :
    (try_download_tokenizer_file_and_open fsTriv envOk gT).1 = Except.ok ()
    ∧ FetchEvent.copyFile (pathJoin gT.tempDir gT.uuid) gT.targetPath
        ∈ (try_download_tokenizer_file_and_open fsTriv envOk gT).2
    ∧ FetchEvent.validate (pathJoin gT.tempDir gT.uuid) true
        ∈ (try_download_tokenizer_file_and_open fsTriv envOk gT).2
    ∧ (try_download_tokenizer_file_and_open fsTriv envOk gT).2.all
        (fun e => !(isRenameEv e)) = true := by
  refine ⟨rfl, by decide, by decide, by decide⟩

end RefactTokens
